import Mathlib

/-!
Verification of the job-log aggregation module `utils/log_report/job_logs.py`
of the mugqic_pipelines repository.

The Python module is shallowly embedded: every function of the module that the
properties below mention is translated to an executable Lean definition.
External effects are made explicit:
  * the filesystem is a `FileSys` value (existence, timestamp and content of
    each file);
  * each external process invocation (`showjobs`, `checkjob`, `whoami`) is a
    `CmdResult` supplied by an `Env` value — the exit code and stdout the
    process would have produced;
  * Python `datetime` values are tracked by provenance with the inductive
    `DateTime` (a timestamp read from the filesystem, or the result of
    `datetime.strptime` on a given string and format);
  * Python exceptions are `Except String` results;
  * Python `float` arithmetic inside `MemorySize` is modelled as exact
    rational arithmetic (`Rat`); this agrees with CPython on every value whose
    significand fits in an IEEE-754 double, in particular on all examples in
    the specification.

String helpers (`split`, `strip`, `splitlines`) are embedded at the character
level with Python's semantics rather than through `String.splitOn`, so that the
embedding matches `str.split` exactly (including empty-segment behaviour).
-/

/-! ## Python string primitives -/

/-- Python `str.split(sep)` for a single-character separator, accumulator form.
`'a:b'.split(':') = ['a','b']`, `''.split(':') = ['']`, `':'.split(':') = ['','']`. -/
def pySplitChAux (sep : Char) : List Char → List Char → List (List Char)
  | [], cur => [cur.reverse]
  | c :: cs, cur =>
      if c = sep then cur.reverse :: pySplitChAux sep cs []
      else pySplitChAux sep cs (c :: cur)

/-- Python `str.split(sep)` for a single-character separator. -/
def pySplitCh (sep : Char) (cs : List Char) : List (List Char) :=
  pySplitChAux sep cs []

/-- Python `sep.join(parts)` for a single-character separator. -/
def joinCh (sep : Char) : List (List Char) → List Char
  | [] => []
  | [x] => x
  | x :: y :: xs => x ++ sep :: joinCh sep (y :: xs)

/-- Python `str.split(sep)` on `String`s. -/
def pySplit (sep : Char) (s : String) : List String :=
  (pySplitCh sep s.data).map String.mk

/-- Python `str.strip()`: remove leading and trailing whitespace. -/
def pyStrip (s : String) : String :=
  String.mk (((s.data.dropWhile Char.isWhitespace).reverse.dropWhile Char.isWhitespace).reverse)

/-- Python `str.splitlines()` (inputs here contain no `\r`):
`''.splitlines() = []`, a trailing newline does not produce a final empty line. -/
def pySplitlines (s : String) : List String :=
  let parts := (pySplitCh '\n' s.data).map String.mk
  if parts.getLast? = some "" then parts.dropLast else parts

/-- Numeric value of a digit string, as `int(...)` reads `'\d+'` captures. -/
def charsToNat (cs : List Char) : Nat :=
  cs.foldl (fun n c => n * 10 + (c.toNat - '0'.toNat)) 0

/-- Match a literal prefix (one regex literal) and return the remaining text. -/
def dropLit (lit : String) (cs : List Char) : Option (List Char) :=
  if lit.data.isPrefixOf cs then some (cs.drop lit.data.length) else none

/-- Python regex `\S`: a non-whitespace character. -/
def nonspace (c : Char) : Bool := ¬ c.isWhitespace

/-! ## Path helpers (`os.path`, POSIX flavour)

`os.path.normpath`-style normalisation (collapsing `..`, duplicate slashes)
is not modelled; none of the verified properties depend on it. -/

/-- `os.path.dirname`: the text before the final `/`; trailing slashes of the
head are stripped unless the head is all slashes. -/
def pyDirname (p : String) : String :=
  let cs := p.data
  let head := (cs.reverse.dropWhile (· ≠ '/')).reverse
  if head.all (· = '/') then String.mk head
  else String.mk ((head.reverse.dropWhile (· = '/')).reverse)

/-- `os.path.join a b` for two components. -/
def pyJoin (a b : String) : String :=
  if b.data.head? = some '/' then b
  else if a = "" then b
  else if a.data.getLast? = some '/' then a ++ b
  else a ++ "/" ++ b

/-- `os.path.abspath` relative to a current working directory `cwd`
(without `normpath` normalisation). -/
def pyAbspath (cwd p : String) : String :=
  if p.data.head? = some '/' then p else pyJoin cwd p

/-! ## `datetime` values

`datetime` objects are external to the module; the embedding tracks them by
provenance.  Distinct constructions denote distinct instants in every scenario
used below (a 1970 filesystem timestamp versus a parsed 2020 calendar date). -/

inductive DateTime where
  /-- `datetime.fromtimestamp(secs)`. -/
  | fromTimestamp (secs : Nat) : DateTime
  /-- `datetime.strptime(text, fmt)`. -/
  | strptime (text : String) (fmt : String) : DateTime
deriving DecidableEq

/-- Format string used by `parse_showjobs_output` date fields. -/
def showjobsDateFmt : String := "%a %b %d %X %Y"

/-- Format string used by `parse_checkjob_output` date fields. -/
def checkjobDateFmt : String := "%a %b %d %H:%M:%S %Y"

/-! ## `MemorySize`

`MemorySize.__init__` tries, in order, the case-insensitive regexes
`^(\d*\.?\d*)g`, `^(\d*\.?\d*)m`, `^(\d*\.?\d*)k`, `^(\d+)b` and multiplies the
captured number by `1024^3`, `1024^2`, `1024`, `1` respectively, truncating
with `int(...)`.  The first three patterns share the identical numeric-prefix
shape `\d*\.?\d*`, so the embedding computes that prefix once and inspects the
following character; this is equivalent to running the three regexes in order
(the prefix is deterministic and backtracking cannot produce a different
suffix position, since no prefix character can serve as the unit letter). -/

structure MemorySize where
  bytes : Int
deriving DecidableEq

/-- The maximal prefix of shape `\d*\.?\d*` (regex greedy match), together
with the remaining characters. -/
def numPrefix (cs : List Char) : List Char × List Char :=
  match cs.dropWhile Char.isDigit with
  | '.' :: r2 =>
      (cs.takeWhile Char.isDigit ++ '.' :: r2.takeWhile Char.isDigit,
       r2.dropWhile Char.isDigit)
  | _ => (cs.takeWhile Char.isDigit, cs.dropWhile Char.isDigit)

/-- Python `float(...)` on a `\d*\.?\d*` capture: the integer part, fractional
digits value, and fractional digit count, so the value is `a + b / 10^k`;
`none` models the `ValueError` raised on `''` and `'.'`. -/
def parseDecParts (cs : List Char) : Option (Nat × Nat × Nat) :=
  let d1 := cs.takeWhile Char.isDigit
  match cs.dropWhile Char.isDigit with
  | [] => if d1 = [] then none else some (charsToNat d1, 0, 0)
  | '.' :: d2 =>
      if d1 = [] ∧ d2 = [] then none
      else some (charsToNat d1, charsToNat d2, d2.length)
  | _ => none

/-- `int(float(num) * mult)`: for the non-negative decimal `a + b/10^k` the
truncated product is `⌊(a·10^k + b)·mult / 10^k⌋`, computed here in exact
integer arithmetic (the kernel-computable form of the rational floor; see the
theorem relating it to `⌊(a + b/10^k)·mult⌋` over `ℚ`). -/
def memBytes (num : List Char) (mult : Nat) : Except String MemorySize :=
  match parseDecParts num with
  | some (a, b, k) => .ok ⟨(((a * 10 ^ k + b) * mult) / 10 ^ k : Nat)⟩
  | none => .error "ValueError: could not convert string to float"

/-- The fourth pattern `^(\d+)b` (case-insensitive). -/
def memTryBytesSuffix (s : String) : Except String MemorySize :=
  match s.data.takeWhile Char.isDigit, s.data.dropWhile Char.isDigit with
  | _ :: _, c :: _ =>
      if c = 'b' ∨ c = 'B' then memBytes (s.data.takeWhile Char.isDigit) 1
      else .error ("Can't convert " ++ s ++ " to a value in bytes")
  | _, _ => .error ("Can't convert " ++ s ++ " to a value in bytes")

/-- `MemorySize.__init__`. -/
def memorySize (s : String) : Except String MemorySize :=
  match numPrefix s.data with
  | (num, c :: _) =>
      if c = 'g' ∨ c = 'G' then memBytes num (1024 ^ 3)
      else if c = 'm' ∨ c = 'M' then memBytes num (1024 ^ 2)
      else if c = 'k' ∨ c = 'K' then memBytes num 1024
      else memTryBytesSuffix s
  | (_, []) => memTryBytesSuffix s

/-! ## `JobDependencies` -/

/-- `JobDependencies.__init__`: split on `':'` and drop empty segments. -/
def jobDependencies (dependency_string : String) : List String :=
  (pySplit ':' dependency_string).filter (· ≠ "")

/-- `JobDependencies.__str__`: `':'.join(...)`. -/
def jobDependenciesStr (deps : List String) : String :=
  String.mk (joinCh ':' (deps.map String.data))

/-! ## `JobLog`

The Python class is a dynamic attribute bag (`__slots__` listing every field,
attributes set only when information is found).  The embedding is a structure
whose enrichable attributes are `Option` fields (`none` = attribute not set);
`job_id`, `job_name`, `job_dependencies` and `path` are always assigned by
`parse_job_list_file`, the only constructor in the aggregation flow, so they
are plain fields.  `timedelta` values are stored as their total seconds. -/

structure JobLog where
  job_id : String
  job_name : String
  job_dependencies : List String
  path : String
  job_full_id : Option String := none
  status : Option String := none
  exit_status : Option String := none
  MUGQIC_exit_status : Option String := none
  walltime : Option Nat := none
  start_date : Option DateTime := none
  end_date : Option DateTime := none
  cput : Option Nat := none
  cpu_to_real_time_ratio : Option Rat := none
  mem : Option MemorySize := none
  vmem : Option MemorySize := none
  vmem_to_mem_ratio : Option Rat := none
  limits : Option String := none
  queue : Option String := none
  username : Option String := none
  group : Option String := none
  nodes : Option String := none
deriving DecidableEq

/-- `conditional_assign`: assign only if the attribute is not yet defined. -/
def conditional_assign {α : Type} (cur : Option α) (value : α) : Option α :=
  match cur with
  | some x => some x
  | none => some value

/-- `percent`: the module formats `100 * num` with `'{0:.0f\x7d%'`; the embedding
keeps the exact percentage (the zero-decimal display rounding is presentation
only and no verified property depends on it). -/
def percent (num : Rat) : Rat := 100 * num

/-! ## External processes and the filesystem -/

/-- Exit code and captured stdout an external process invocation would
produce. -/
structure CmdResult where
  retCode : Int
  stdout : String
deriving DecidableEq

/-- `run_command`: raises unless the process exits 0 with non-blank output;
returns stripped stdout. -/
def run_command (res : CmdResult) : Except String String :=
  if res.retCode ≠ 0 ∨ pyStrip res.stdout = "" then
    .error "Command failed or did not return output"
  else .ok (pyStrip res.stdout)

/-- The filesystem: existence, `os.path.getctime` timestamp, and content
(as the list of lines `f.readlines()` yields, without trailing newlines —
every use in the module either strips the line or matches
whitespace-insensitively at the end). -/
structure FileSys where
  fileExists : String → Bool
  ctime : String → Nat
  lines : String → List String

/-- The environment of one aggregation run: the filesystem, the current
working directory (for `os.path.abspath`), the current year (for
`datetime.now().year` in `parse_checkjob_output`), and the result of each
external process invocation.  The `showjobs` date/user options assembled by
`get_all_showjobs_output` select which jobs appear in the report; the report
itself is the environment's `showjobsResult`, so the option assembly
(`get_end_date`, `get_user`) is not modelled separately — every failure inside
it is caught (`try/except` returning `None`), except
`int(get_file_date(job_list_filename))`, which raises exactly when the job
list file is missing and is modelled by the `fileExists` guard below. -/
structure Env where
  fs : FileSys
  cwd : String
  nowYear : Nat
  showjobsResult : CmdResult
  checkjobResult : String → CmdResult

/-! ## `parse_job_list_file` -/

/-- The loop body of `parse_job_list_file`: one manifest line.  Tuple
unpacking of `line.strip().split('\t')` raises `ValueError` unless the line
has exactly 4 tab-separated fields. -/
def parseJobListLine (filename : String) (cwd : String) (line : String) :
    Except String JobLog :=
  match pySplit '\t' (pyStrip line) with
  | [id, name, dependency_string, log_file_path] =>
      .ok { job_id := id
            job_name := name
            job_dependencies := jobDependencies dependency_string
            path := pyAbspath cwd (pyJoin (pyDirname filename) log_file_path) }
  | _ => .error "ValueError: unpacking requires exactly 4 values"

/-- Loop of `parse_job_list_file` over the manifest lines. -/
def parseJobListLines (filename : String) (cwd : String) :
    List String → Except String (List JobLog)
  | [] => .ok []
  | l :: ls =>
      match parseJobListLine filename cwd l with
      | .ok log =>
          match parseJobListLines filename cwd ls with
          | .ok logs => .ok (log :: logs)
          | .error e => .error e
      | .error e => .error e

/-- `parse_job_list_file`: open the manifest (IOError if missing) and parse
every line. -/
def parse_job_list_file (fs : FileSys) (cwd : String) (filename : String) :
    Except String (List JobLog) :=
  if fs.fileExists filename then parseJobListLines filename cwd (fs.lines filename)
  else .error "IOError: no such file"

/-! ## `parse_cluster_job_log_paths` (local log stage) -/

/-- Leftmost match of the unanchored regex `MUGQICexitStatus:(\S+)` in one
line: the first occurrence of the literal followed by at least one
non-whitespace character; the capture is the maximal non-whitespace run. -/
def findMarker : List Char → Option String
  | [] => none
  | c :: cs =>
      match dropLit "MUGQICexitStatus:" (c :: cs) with
      | some after =>
          match after.takeWhile nonspace with
          | [] => findMarker cs
          | v => some (String.mk v)
      | none => findMarker cs

/-- The line scan of `parse_cluster_job_log_paths`: each matching line
(re)assigns `MUGQIC_exit_status` and `status`. -/
def scanMarkers : List String → JobLog → JobLog
  | [], log => log
  | l :: ls, log =>
      match findMarker l.data with
      | some v =>
          scanMarkers ls { log with
            MUGQIC_exit_status := some v
            status := some (if v = "0" then "SUCCESS" else "FAILED") }
      | none => scanMarkers ls log

/-- Body of `parse_cluster_job_log_paths` for one `JobLog`: if the log file
exists, `end_date` is assigned the file timestamp
(`datetime.fromtimestamp(get_file_date(path))`) and the content is scanned for
the exit-status marker. -/
def parseClusterOne (fs : FileSys) (log : JobLog) : JobLog :=
  if fs.fileExists log.path then
    scanMarkers (fs.lines log.path)
      { log with end_date := some (DateTime.fromTimestamp (fs.ctime log.path)) }
  else log

/-- `parse_cluster_job_log_paths` (the `job_output_dir` parameter of the
Python function is unused by its body). -/
def parse_cluster_job_log_paths (fs : FileSys) (job_logs : List JobLog) : List JobLog :=
  job_logs.map (parseClusterOne fs)

/-! ## showjobs parsing

Each `parse_showjobs_output` pattern has the shape
`^Label *: (capture)$`: the literal label, any number of spaces, the literal
`': '`, the capture, end of line.  The space run is matched greedily; since
`':'` is not a space, greedy matching is exact (no backtracking can succeed
where it fails). -/

/-- Match `^Label *: ` and return the text after it. -/
def labelRestCore (label : String) (cs : List Char) : Option (List Char) :=
  match dropLit label cs with
  | some r =>
      match r.dropWhile (· = ' ') with
      | ':' :: ' ' :: rest => some rest
      | _ => none
  | none => none

/-- Match `^Label *: ` in a line. -/
def labelRest (label : String) (line : String) : Option (List Char) :=
  labelRestCore label line.data

/-- Capture `(\d+)$`. -/
def capDigitsEnd (cs : List Char) : Option String :=
  if cs ≠ [] ∧ cs.all Char.isDigit then some (String.mk cs) else none

/-- Capture `(\S+)$`. -/
def capNonspaceEnd (cs : List Char) : Option String :=
  if cs ≠ [] ∧ cs.all nonspace then some (String.mk cs) else none

/-- Capture `(\S+)` without an end anchor: the maximal non-whitespace run,
which must be non-empty. -/
def capNonspaceRun (cs : List Char) : Option String :=
  match cs.takeWhile nonspace with
  | [] => none
  | v => some (String.mk v)

/-- Capture `(\d+):(\d+):(\d+)$` (digit groups contain no `':'`, so this is
splitting on `':'` into exactly three non-empty digit groups). -/
def capHMSEnd (cs : List Char) : Option (Nat × Nat × Nat) :=
  match pySplitCh ':' cs with
  | [a, b, c] =>
      if a ≠ [] ∧ a.all Char.isDigit ∧ b ≠ [] ∧ b.all Char.isDigit ∧
         c ≠ [] ∧ c.all Char.isDigit then
        some (charsToNat a, charsToNat b, charsToNat c)
      else none
  | _ => none

/-- `timedelta(hours=h, minutes=m, seconds=s).total_seconds()`. -/
def timedeltaSecs (h m s : Nat) : Nat := h * 3600 + m * 60 + s

/-- The `elif` chain of `parse_showjobs_output` for one line.  Most fields are
assigned directly (overwriting); only `status` uses `conditional_assign`.
The `MemorySize` constructor can raise, which propagates. -/
def parse_showjobs_line (job_log : JobLog) (line : String) : Except String JobLog :=
  match (labelRest "Job Id" line).bind capDigitsEnd with
  | some v => .ok { job_log with job_full_id := some v }
  | none =>
  match (labelRest "Start Time" line).map String.mk with
  | some v => .ok { job_log with start_date := some (DateTime.strptime v showjobsDateFmt) }
  | none =>
  match (labelRest "User Name" line).bind capNonspaceEnd with
  | some v => .ok { job_log with username := some v }
  | none =>
  match (labelRest "Group Name" line).bind capNonspaceEnd with
  | some v => .ok { job_log with group := some v }
  | none =>
  match (labelRest "CPUTime" line).bind capHMSEnd with
  | some (h, m, s) => .ok { job_log with cput := some (timedeltaSecs h m s) }
  | none =>
  match (labelRest "Memory Used" line).bind capNonspaceEnd with
  | some v =>
      match memorySize v with
      | .ok ms => .ok { job_log with mem := some ms }
      | .error e => .error e
  | none =>
  match (labelRest "vmem Used" line).bind capNonspaceEnd with
  | some v =>
      match memorySize v with
      | .ok ms => .ok { job_log with vmem := some ms }
      | .error e => .error e
  | none =>
  match (labelRest "Wallclock Duration" line).bind capHMSEnd with
  | some (h, m, s) => .ok { job_log with walltime := some (timedeltaSecs h m s) }
  | none =>
  match (labelRest "Queue Name" line).bind capNonspaceEnd with
  | some v => .ok { job_log with queue := some v }
  | none =>
  match (labelRest "Exit Code" line).bind capNonspaceEnd with
  | some v =>
      .ok { job_log with
        exit_status := some v
        status := conditional_assign job_log.status (if v = "0" then "SUCCESS" else "FAILED") }
  | none =>
  match (labelRest "End Time" line).map String.mk with
  | some v => .ok { job_log with end_date := some (DateTime.strptime v showjobsDateFmt) }
  | none => .ok job_log

/-- Loop of `parse_showjobs_output` over the entry lines. -/
def parse_showjobs_lines : List String → JobLog → Except String JobLog
  | [], job_log => .ok job_log
  | l :: ls, job_log =>
      match parse_showjobs_line job_log l with
      | .ok log2 => parse_showjobs_lines ls log2
      | .error e => .error e

/-- `parse_showjobs_output`: look the job id up in the showjobs dictionary and
parse the matching entry, if any. -/
def parse_showjobs_output (id_to_showjobs_entry : List (String × List String))
    (job_log : JobLog) : Except String JobLog :=
  match id_to_showjobs_entry.lookup job_log.job_id with
  | some entry => parse_showjobs_lines entry job_log
  | none => .ok job_log

/-! ## showjobs output retrieval -/

/-- The 80-dash separator between showjobs entries. -/
def dashes80 : List Char := List.replicate 80 '-'

/-- Python `str.split(sep)` for a multi-character separator. -/
def splitLitAux (sep : List Char) : List Char → List Char → List (List Char)
  | [], cur => [cur.reverse]
  | c :: cs, cur =>
      if sep ≠ [] ∧ sep.isPrefixOf (c :: cs) then
        cur.reverse :: splitLitAux sep (cs.drop (sep.length - 1)) []
      else splitLitAux sep cs (c :: cur)
  termination_by l _ => l.length
  decreasing_by
    all_goals simp [List.length_drop]
    omega

/-- Python `str.split(sep)` on `String`s, multi-character separator. -/
def pySplitStr (sep : String) (s : String) : List String :=
  (splitLitAux sep.data s.data []).map String.mk

/-- Leftmost match of the unanchored `Job Id *: (\d+)` in one line
(used when indexing showjobs entries by job id). -/
def findJobIdInLine : List Char → Option String
  | [] => none
  | c :: cs =>
      match labelRestCore "Job Id" (c :: cs) with
      | some r =>
          match r.takeWhile Char.isDigit with
          | [] => findJobIdInLine cs
          | d => some (String.mk d)
      | none => findJobIdInLine cs

/-- First line of an entry carrying a job id (the loop `break`s at the first
`Job Id` line whether or not the id is wanted). -/
def findEntryId : List String → Option String
  | [] => none
  | l :: ls =>
      match findJobIdInLine l.data with
      | some id => some id
      | none => findEntryId ls

/-- `get_all_showjobs_output`: run the bulk query; a failed query is absorbed
to `None`.  Raises only when the job list file is missing
(`int(get_file_date(job_list_filename))` on `None`). -/
def get_all_showjobs_output (env : Env) (job_list_filename : String)
    (_job_log_list : List JobLog) : Except String (Option String) :=
  if env.fs.fileExists job_list_filename then
    .ok (match run_command env.showjobsResult with
         | .ok out => some out
         | .error _ => none)
  else .error "TypeError: int() argument must not be NoneType"

/-- `get_showjobs_output`: split the bulk output into entries on the 80-dash
separator, index each entry by the job id found in it, and keep the wanted
ids.  Later entries overwrite earlier ones (Python dict assignment), modelled
by prepending and first-match lookup. -/
def get_showjobs_output (env : Env) (job_list_filename : String)
    (job_logs : List JobLog) : Except String (Option (List (String × List String))) :=
  match get_all_showjobs_output env job_list_filename job_logs with
  | .error e => .error e
  | .ok none => .ok none
  | .ok (some all_results) =>
      let ids := job_logs.map (·.job_id)
      .ok (some ((pySplitStr (String.mk dashes80) all_results).foldl
        (fun dict entry =>
          let entry_lines := pySplitlines entry
          match findEntryId entry_lines with
          | some id => if id ∈ ids then (id, entry_lines) :: dict else dict
          | none => dict) []))

/-! ## checkjob parsing

`parse_checkjob_output` assigns every field with `conditional_assign`
(set-if-absent), except `limits`, which is appended to.  Statuses seen here:
`Idle → INACTIVE`, `Running → ACTIVE`, `Removed → FAILED`.

Two regexes (`Creds`, `OuptutFile`) could in principle backtrack into a
`\S+` group when fields are concatenated without spaces; the embedding uses
maximal-munch matching, which agrees with the regex on all space-separated
reports (the only shape the scheduler emits). -/

/-- `get_checkjob_output`: per-job query; a failed query yields `''`, whose
iteration is empty, modelled as `[]`. -/
def get_checkjob_output (env : Env) (job_id : String) : List String :=
  match run_command (env.checkjobResult job_id) with
  | .ok out => pySplitlines out
  | .error _ => []

/-- `\s+` followed by the rest (greedy, exact here since the next pattern
element is a digit). -/
def wsDrop1 (cs : List Char) : Option (List Char) :=
  match cs with
  | c :: rest => if c.isWhitespace then some (rest.dropWhile Char.isWhitespace) else none
  | [] => none

/-- `(\d+):(\d+):(\d+)` without an end anchor (prefix match). -/
def hmsPrefix (cs : List Char) : Option (Nat × Nat × Nat) :=
  match cs.takeWhile Char.isDigit, cs.dropWhile Char.isDigit with
  | a@(_ :: _), ':' :: r2 =>
      match r2.takeWhile Char.isDigit, r2.dropWhile Char.isDigit with
      | b@(_ :: _), ':' :: r4 =>
          match r4.takeWhile Char.isDigit with
          | [] => none
          | c => some (charsToNat a, charsToNat b, charsToNat c)
      | _, _ => none
  | _, _ => none

/-- `^Completion Code: (\d+) +Time: (.*)$`. -/
def completionCodeMatch (cs : List Char) : Option (String × String) :=
  match dropLit "Completion Code: " cs with
  | some r =>
      match r.takeWhile Char.isDigit, r.dropWhile Char.isDigit with
      | d@(_ :: _), ' ' :: r2 =>
          match dropLit "Time: " (r2.dropWhile (· = ' ')) with
          | some t => some (String.mk d, String.mk t)
          | none => none
      | _, _ => none
  | none => none

/-- `^Creds: *user:(\S+) *group:(\S+) *class:(\S+)`; returns the user and
group captures. -/
def credsMatch (cs : List Char) : Option (String × String) :=
  match dropLit "Creds:" cs with
  | some r0 =>
      match dropLit "user:" (r0.dropWhile (· = ' ')) with
      | some r1 =>
          match r1.takeWhile nonspace with
          | [] => none
          | u =>
              match dropLit "group:" ((r1.dropWhile nonspace).dropWhile (· = ' ')) with
              | some r2 =>
                  match r2.takeWhile nonspace with
                  | [] => none
                  | g =>
                      match dropLit "class:" ((r2.dropWhile nonspace).dropWhile (· = ' ')) with
                      | some r3 =>
                          match r3.takeWhile nonspace with
                          | [] => none
                          | _ => some (String.mk u, String.mk g)
                      | none => none
              | none => none
      | none => none
  | none => none

/-- `^WallTime:\s+(\d+):(\d+):(\d+)`. -/
def wallTimeMatch (cs : List Char) : Option (Nat × Nat × Nat) :=
  match dropLit "WallTime:" cs with
  | some r =>
      match wsDrop1 r with
      | some r2 => hmsPrefix r2
      | none => none
  | none => none

/-- Rightmost split of `rest` as `(\S+):(//\S+)$` (the greedy first group
takes the last `'://'` with at least one character after the slashes);
returns the first group.  The caller has checked `rest` is all
non-whitespace. -/
def outSplit : List Char → Option (List Char)
  | [] => none
  | c :: rest =>
      match outSplit rest with
      | some g1 => some (c :: g1)
      | none =>
          if c = ':' then
            match rest with
            | '/' :: '/' :: _ :: _ => some []
            | _ => none
          else none

/-- `^OuptutFile: *(\S+):(//\S+)$` (the literal's typo is the source's);
returns the first capture. -/
def outFileMatch (cs : List Char) : Option String :=
  match dropLit "OuptutFile:" cs with
  | some r0 =>
      let r := r0.dropWhile (· = ' ')
      if r ≠ [] ∧ r.all nonspace then
        match outSplit r with
        | some (g1@(_ :: _)) => some (String.mk g1)
        | _ => none
      else none
  | none => none

/-- Leftmost match of `(lit\d+)` (for `nodes:` and `ppn=` limit patterns);
returns the matched text. -/
def findLitDigits (lit : String) : List Char → Option String
  | [] => none
  | c :: cs =>
      match dropLit lit (c :: cs) with
      | some r =>
          match r.takeWhile Char.isDigit with
          | [] => findLitDigits lit cs
          | d => some (String.mk (lit.data ++ d))
      | none => findLitDigits lit cs

/-- Leftmost match of `(walltime=\d+:\d+:\d+)`; returns the matched text. -/
def findWalltimeLim : List Char → Option String
  | [] => none
  | c :: cs =>
      match dropLit "walltime=" (c :: cs) with
      | some r =>
          match r.takeWhile Char.isDigit, r.dropWhile Char.isDigit with
          | a@(_ :: _), ':' :: r2 =>
              match r2.takeWhile Char.isDigit, r2.dropWhile Char.isDigit with
              | b@(_ :: _), ':' :: r4 =>
                  match r4.takeWhile Char.isDigit with
                  | [] => findWalltimeLim cs
                  | d => some (String.mk ("walltime=".data ++ a ++ ':' :: b ++ ':' :: d))
              | _, _ => findWalltimeLim cs
          | _, _ => findWalltimeLim cs
      | none => findWalltimeLim cs

/-- Leftmost match of `(lit\d+\S)` (for `vmem=` and `mem=`): greedy digits
then one non-whitespace character; when no character follows the digits (or a
whitespace does), the regex backtracks and the last digit serves as the `\S`,
requiring at least two digits.  Returns the matched text. -/
def findMemLim (lit : String) : List Char → Option String
  | [] => none
  | c :: cs =>
      match dropLit lit (c :: cs) with
      | some r =>
          match r.takeWhile Char.isDigit, r.dropWhile Char.isDigit with
          | [], _ => findMemLim lit cs
          | d, e :: _ =>
              if nonspace e then some (String.mk (lit.data ++ d ++ [e]))
              else if 2 ≤ d.length then some (String.mk (lit.data ++ d))
              else findMemLim lit cs
          | d, [] =>
              if 2 ≤ d.length then some (String.mk (lit.data ++ d))
              else findMemLim lit cs
      | none => findMemLim lit cs

/-- Append one found limit: `limits += ':' + g` when `limits` is set,
else `limits = g` (this is the one checkjob assignment that modifies an
already-set field). -/
def addLimit (job_log : JobLog) (found : Option String) : JobLog :=
  match found with
  | some g =>
      { job_log with limits := some (match job_log.limits with
          | some l => l ++ ":" ++ g
          | none => g) }
  | none => job_log

/-- The `elif` chain of `parse_checkjob_output` for one line.
`checkjob_results` and `index` serve the `Allocated Nodes` branch, which
reads the following line (`IndexError` when there is none).

The `WallTime` branch's `elif` condition also requires
`hasattr(job_log, 'MUGQIC_exit_status')`; when the pattern matches but the
attribute is absent, Python falls through to the later branches, none of
which can match a line starting `WallTime:` (all later literal prefixes
differ), so the fall-through is a no-op, encoded directly.

The `OuptutFile` branch assigns `path` with `conditional_assign`; `path` is
set on every `JobLog` built by `parse_job_list_file` (the only constructor in
the aggregation flow), so the assignment never fires and the branch is a
no-op beyond consuming the `elif` chain. -/
def checkjob_step (checkjob_results : List String) (year : Nat)
    (index : Nat) (line : String) (job_log : JobLog) : Except String JobLog :=
  match (dropLit "job " line.data).bind capDigitsEnd with
  | some v => .ok { job_log with job_full_id := conditional_assign job_log.job_full_id v }
  | none =>
  match (dropLit "State: " line.data).bind capNonspaceRun with
  | some state =>
      .ok (if state = "Idle" then
            { job_log with status := conditional_assign job_log.status "INACTIVE" }
          else if state = "Running" then
            { job_log with status := conditional_assign job_log.status "ACTIVE" }
          else if state = "Removed" then
            { job_log with status := conditional_assign job_log.status "FAILED" }
          else job_log)
  | none =>
  match completionCodeMatch line.data with
  | some (code, timeText) =>
      .ok { job_log with
        exit_status := conditional_assign job_log.exit_status code
        end_date := conditional_assign job_log.end_date
          (DateTime.strptime (timeText ++ " " ++ toString year) checkjobDateFmt) }
  | none =>
  match credsMatch line.data with
  | some (u, g) =>
      .ok { job_log with
        username := conditional_assign job_log.username u
        group := conditional_assign job_log.group g }
  | none =>
  match wallTimeMatch line.data with
  | some (h, m, s) =>
      .ok (if job_log.MUGQIC_exit_status.isSome then
            { job_log with walltime := conditional_assign job_log.walltime (timedeltaSecs h m s) }
          else job_log)
  | none =>
  match dropLit "StartTime: " line.data with
  | some rest =>
      .ok { job_log with
        start_date := conditional_assign job_log.start_date
          (DateTime.strptime (String.mk rest ++ " " ++ toString year) checkjobDateFmt) }
  | none =>
  match dropLit "Allocated Nodes:" line.data with
  | some _ =>
      match checkjob_results.get? (index + 1) with
      | some next_line => .ok { job_log with nodes := conditional_assign job_log.nodes next_line }
      | none => .error "IndexError: list index out of range"
  | none =>
  match outFileMatch line.data with
  | some _ => .ok job_log
  | none =>
  match dropLit "Submit Args:" line.data with
  | some _ =>
      .ok (addLimit (addLimit (addLimit (addLimit (addLimit job_log
            (findLitDigits "nodes:" line.data))
            (findLitDigits "ppn=" line.data))
            (findWalltimeLim line.data))
            (findMemLim "vmem=" line.data))
            (findMemLim "mem=" line.data))
  | none => .ok job_log

/-- Loop of `parse_checkjob_output` (`enumerate(checkjob_results)`). -/
def parse_checkjob_go (checkjob_results : List String) (year : Nat) :
    List String → Nat → JobLog → Except String JobLog
  | [], _, job_log => .ok job_log
  | l :: ls, index, job_log =>
      match checkjob_step checkjob_results year index l job_log with
      | .ok log2 => parse_checkjob_go checkjob_results year ls (index + 1) log2
      | .error e => .error e

/-- `parse_checkjob_output`. -/
def parse_checkjob_output (year : Nat) (checkjob_results : List String)
    (job_log : JobLog) : Except String JobLog :=
  parse_checkjob_go checkjob_results year checkjob_results 0 job_log

/-! ## Filtering and ratios -/

/-- The `is_successful` lambda of `filter_by_success`. -/
def is_successful (log : JobLog) : Bool :=
  log.MUGQIC_exit_status = some "0"

/-- `filter_by_success` (`if keep_successful: ... elif keep_unsuccessful:`). -/
def filter_by_success (job_logs : List JobLog)
    (keep_successful keep_unsuccessful : Bool) : List JobLog :=
  if keep_successful then job_logs.filter is_successful
  else if keep_unsuccessful then job_logs.filter (fun log => ¬ is_successful log)
  else job_logs

/-- Loop body of `assign_cpu_to_real_time_ratio`: requires both `cput` and
`walltime` present and a non-zero walltime. -/
def assignCpuRatioOne (log : JobLog) : JobLog :=
  match log.cput, log.walltime with
  | some cput, some walltime =>
      if walltime ≠ 0 then
        { log with cpu_to_real_time_ratio := some (percent ((cput : Rat) / (walltime : Rat))) }
      else log
  | _, _ => log

/-- `assign_cpu_to_real_time_ratio`. -/
def assign_cpu_to_real_time_ratio (job_logs : List JobLog) : List JobLog :=
  job_logs.map assignCpuRatioOne

/-- Loop body of `assign_vmem_to_mem_ratio`: requires both `vmem` and `mem`
present and non-zero `mem.bytes`. -/
def assignVmemRatioOne (log : JobLog) : JobLog :=
  match log.vmem, log.mem with
  | some vmem, some mem =>
      if mem.bytes ≠ 0 then
        { log with vmem_to_mem_ratio := some (percent ((vmem.bytes : Rat) / (mem.bytes : Rat) - 1)) }
      else log
  | _, _ => log

/-- `assign_vmem_to_mem_ratio`. -/
def assign_vmem_to_mem_ratio (job_logs : List JobLog) : List JobLog :=
  job_logs.map assignVmemRatioOne

/-! ## `create_job_logs` -/

/-- Python truthiness of `id_to_showjobs_entry` in `create_job_logs`:
`None` and the empty dict are falsy. -/
def dictTruthy (d : Option (List (String × List String))) : Bool :=
  match d with
  | some entries => entries ≠ []
  | none => false

/-- The per-job enrichment loop of `create_job_logs`: showjobs fields (when a
dictionary is available), then checkjob fields. -/
def enrichLoop (env : Env) (dict : Option (List (String × List String))) :
    List JobLog → Except String (List JobLog)
  | [] => .ok []
  | log :: rest =>
      match (if dictTruthy dict then parse_showjobs_output (dict.getD []) log else .ok log) with
      | .ok log1 =>
          match parse_checkjob_output env.nowYear (get_checkjob_output env log1.job_id) log1 with
          | .ok log2 =>
              match enrichLoop env dict rest with
              | .ok logs => .ok (log2 :: logs)
              | .error e => .error e
          | .error e => .error e
      | .error e => .error e

/-- `create_job_logs`: parse the manifest, run the local-log stage, filter,
run the showjobs and checkjob stages (skipped under `minimal_detail`), and
compute the two ratios. -/
def create_job_logs (env : Env) (job_list_file : String)
    (keep_successful keep_unsuccessful : Bool) (minimal_detail : Bool) :
    Except String (List JobLog) :=
  match parse_job_list_file env.fs env.cwd job_list_file with
  | .error e => .error e
  | .ok job_logs0 =>
      let job_logs1 := parse_cluster_job_log_paths env.fs job_logs0
      if minimal_detail then .ok job_logs1
      else
        let job_logs2 := filter_by_success job_logs1 keep_successful keep_unsuccessful
        match get_showjobs_output env job_list_file job_logs2 with
        | .error e => .error e
        | .ok dict =>
            match enrichLoop env dict job_logs2 with
            | .ok job_logs3 =>
                .ok (assign_vmem_to_mem_ratio (assign_cpu_to_real_time_ratio job_logs3))
            | .error e => .error e

/-! # Theorems -/

deriving instance DecidableEq for Except

/-! ## Helper lemmas -/

theorem numPrefix_append (cs : List Char) :
    (numPrefix cs).1 ++ (numPrefix cs).2 = cs := by
  unfold numPrefix
  have h1 := List.takeWhile_append_dropWhile (p := Char.isDigit) (l := cs)
  split
  next r2 heq =>
    have h2 := List.takeWhile_append_dropWhile (p := Char.isDigit) (l := r2)
    rw [heq] at h1
    simp only [List.cons_append, List.append_assoc] at h1 ⊢
    rw [h2, h1]
  next heq =>
    exact h1

theorem memTryBytesSuffix_ok_suffix (s : String) (v : MemorySize)
    (h : memTryBytesSuffix s = .ok v) :
    ∃ c ∈ s.data, c.toLower = 'b' := by
  unfold memTryBytesSuffix at h
  split at h
  next c rest hd hr =>
    split at h
    next hc =>
      refine ⟨c, ?_, ?_⟩
      · have := List.takeWhile_append_dropWhile (p := Char.isDigit) (l := s.data)
        rw [hr] at this
        rw [← this]
        exact List.mem_append_right _ (List.mem_cons_self _ _)
      · rcases hc with rfl | rfl <;> rfl
    next => exact absurd h (by simp)
  next => exact absurd h (by simp)

theorem memBytes_floor_spec (num : List Char) (a b k mult : ℕ)
    (h : parseDecParts num = some (a, b, k)) :
    memBytes num mult = .ok ⟨⌊((a : ℚ) + (b : ℚ) / 10 ^ k) * (mult : ℚ)⌋⟩ := by
  unfold memBytes
  rw [h]
  simp only [Except.ok.injEq, MemorySize.mk.injEq]
  have key : ((a : ℚ) + (b : ℚ) / 10 ^ k) * (mult : ℚ)
      = ((((a * 10 ^ k + b) * mult : ℕ) : ℤ) : ℚ) / (((10 ^ k : ℕ)) : ℚ) := by
    have hk : ((10 : ℚ)) ^ k ≠ 0 := by positivity
    push_cast
    field_simp
    try ring
  rw [key, Rat.floor_intCast_div_natCast]
  push_cast
  try ring

/-- C5: `MemorySize('2.5G').bytes = 2684354560` and
`MemorySize('512k').bytes = 524288`; in general a leading decimal number with
case-insensitive suffix `g`, `m` or `k` is multiplied by `1024^3`, `1024^2`
or `1024` respectively, and the product is truncated to an integer. -/
theorem c5_memory_size_parsing :
    (memorySize "2.5G" = .ok ⟨2684354560⟩ ∧ memorySize "512k" = .ok ⟨524288⟩) ∧
    ∀ (s : String) (num rest : List Char) (c : Char) (a b k : ℕ),
      numPrefix s.data = (num, c :: rest) →
      parseDecParts num = some (a, b, k) →
      ((c = 'g' ∨ c = 'G') →
        memorySize s = .ok ⟨⌊((a : ℚ) + (b : ℚ) / 10 ^ k) * 1024 ^ 3⌋⟩) ∧
      ((c = 'm' ∨ c = 'M') →
        memorySize s = .ok ⟨⌊((a : ℚ) + (b : ℚ) / 10 ^ k) * 1024 ^ 2⌋⟩) ∧
      ((c = 'k' ∨ c = 'K') →
        memorySize s = .ok ⟨⌊((a : ℚ) + (b : ℚ) / 10 ^ k) * 1024⌋⟩) := by
  constructor
  · exact ⟨by decide, by decide⟩
  · intro s num rest c a b k hnp hparts
    refine ⟨fun hc => ?_, fun hc => ?_, fun hc => ?_⟩ <;> rcases hc with rfl | rfl <;>
      simp only [memorySize, hnp]
    · rw [if_pos (by decide), memBytes_floor_spec num a b k _ hparts]; norm_num
    · rw [if_pos (by decide), memBytes_floor_spec num a b k _ hparts]; norm_num
    · rw [if_neg (by decide), if_pos (by decide),
        memBytes_floor_spec num a b k _ hparts]; norm_num
    · rw [if_neg (by decide), if_pos (by decide),
        memBytes_floor_spec num a b k _ hparts]; norm_num
    · rw [if_neg (by decide), if_neg (by decide), if_pos (by decide),
        memBytes_floor_spec num a b k _ hparts]; norm_num
    · rw [if_neg (by decide), if_neg (by decide), if_pos (by decide),
        memBytes_floor_spec num a b k _ hparts]; norm_num

/-- Witness for C5 at the spec's own example `'2.5G'`. -/
theorem c5_memory_size_parsing_witness :
    numPrefix "2.5G".data = (['2', '.', '5'], ['G']) ∧
    parseDecParts ['2', '.', '5'] = some (2, 5, 1) ∧
    memorySize "2.5G" = .ok ⟨⌊((2 : ℚ) + (5 : ℚ) / 10 ^ 1) * 1024 ^ 3⌋⟩ :=
  ⟨by decide, by decide,
    (c5_memory_size_parsing.2 "2.5G" ['2', '.', '5'] [] 'G' 2 5 1
      (by decide) (by decide)).1 (Or.inr rfl)⟩

/-- C10: a bare digit string carries no unit suffix, so the constructor
raises (despite the docstring's claim that bytes are assumed); conversely any
accepted value carries a case-insensitive `g`, `m`, `k` or `b`. -/
theorem c10_bare_number_rejected :
    (∀ s : String, s ≠ "" → (∀ c ∈ s.data, c.isDigit = true) →
      ∃ e, memorySize s = .error e) ∧
    (∀ (s : String) (v : MemorySize), memorySize s = .ok v →
      ∃ c ∈ s.data, c.toLower = 'g' ∨ c.toLower = 'm' ∨ c.toLower = 'k' ∨ c.toLower = 'b') := by
  constructor
  · intro s hne hdig
    obtain ⟨l⟩ := s
    have htake : l.takeWhile Char.isDigit = l :=
      List.takeWhile_eq_self_iff.mpr hdig
    have hdrop : l.dropWhile Char.isDigit = [] :=
      List.dropWhile_eq_nil_iff.mpr hdig
    have hnp : numPrefix l = (l, []) := by
      simp only [numPrefix, hdrop, htake]
    cases l with
    | nil => exact absurd (by decide) hne
    | cons c cs =>
        refine ⟨"Can't convert " ++ String.mk (c :: cs) ++ " to a value in bytes", ?_⟩
        simp only [memorySize, hnp]
        simp only [memTryBytesSuffix, htake, hdrop]
  · intro s v h
    unfold memorySize at h
    split at h
    next num c rest hnp =>
      by_cases hg : c = 'g' ∨ c = 'G'
      · refine ⟨c, ?_, ?_⟩
        · have := numPrefix_append s.data
          rw [hnp] at this
          rw [← this]
          exact List.mem_append_right _ (List.mem_cons_self _ _)
        · rcases hg with rfl | rfl <;> simp
      · rw [if_neg hg] at h
        by_cases hm : c = 'm' ∨ c = 'M'
        · refine ⟨c, ?_, ?_⟩
          · have := numPrefix_append s.data
            rw [hnp] at this
            rw [← this]
            exact List.mem_append_right _ (List.mem_cons_self _ _)
          · rcases hm with rfl | rfl <;> simp
        · rw [if_neg hm] at h
          by_cases hk : c = 'k' ∨ c = 'K'
          · refine ⟨c, ?_, ?_⟩
            · have := numPrefix_append s.data
              rw [hnp] at this
              rw [← this]
              exact List.mem_append_right _ (List.mem_cons_self _ _)
            · rcases hk with rfl | rfl <;> simp
          · rw [if_neg hk] at h
            obtain ⟨cb, hmem, hcb⟩ := memTryBytesSuffix_ok_suffix s v h
            exact ⟨cb, hmem, by simp [hcb]⟩
    next =>
      obtain ⟨cb, hmem, hcb⟩ := memTryBytesSuffix_ok_suffix s v h
      exact ⟨cb, hmem, by simp [hcb]⟩

/-- Witness for C10 at `'123'`. -/
theorem c10_bare_number_rejected_witness :
    ("123" ≠ "" ∧ ∀ c ∈ "123".data, c.isDigit = true) ∧
    ∃ e, memorySize "123" = .error e :=
  ⟨⟨by decide, by decide⟩, c10_bare_number_rejected.1 "123" (by decide) (by decide)⟩

theorem strMkData (s : String) : String.mk s.data = s := by
  cases s
  rfl

theorem pySplitChAux_append (sep : Char) (x : List Char) (rest cur : List Char)
    (hx : sep ∉ x) :
    pySplitChAux sep (x ++ rest) cur = pySplitChAux sep rest (x.reverse ++ cur) := by
  induction x generalizing cur with
  | nil => simp
  | cons c cs ih =>
      have hc : ¬ c = sep := by
        rintro rfl
        exact hx (List.mem_cons_self _ _)
      have hcs : sep ∉ cs := fun hm => hx (List.mem_cons_of_mem _ hm)
      show pySplitChAux sep (c :: (cs ++ rest)) cur = _
      rw [show pySplitChAux sep (c :: (cs ++ rest)) cur
            = pySplitChAux sep (cs ++ rest) (c :: cur) by simp [pySplitChAux, hc]]
      rw [ih (c :: cur) hcs]
      simp [List.reverse_cons, List.append_assoc]

theorem pySplitCh_joinCh (sep : Char) (l : List (List Char)) (hne : l ≠ [])
    (hnosep : ∀ x ∈ l, sep ∉ x) :
    pySplitCh sep (joinCh sep l) = l := by
  induction l with
  | nil => exact absurd rfl hne
  | cons x xs ih =>
      have hx : sep ∉ x := hnosep x (List.mem_cons_self _ _)
      cases xs with
      | nil =>
          show pySplitChAux sep (joinCh sep [x]) [] = [x]
          have hj : joinCh sep [x] = x ++ [] := by simp [joinCh]
          rw [hj, pySplitChAux_append sep x [] [] hx]
          simp [pySplitChAux]
      | cons y ys =>
          show pySplitChAux sep (joinCh sep (x :: y :: ys)) [] = x :: y :: ys
          have hj : joinCh sep (x :: y :: ys) = x ++ sep :: joinCh sep (y :: ys) := rfl
          rw [hj, pySplitChAux_append sep x _ [] hx]
          rw [show pySplitChAux sep (sep :: joinCh sep (y :: ys)) (x.reverse ++ [])
                = (x.reverse ++ []).reverse :: pySplitChAux sep (joinCh sep (y :: ys)) [] by
              simp [pySplitChAux]]
          have hrec := ih (by simp) (fun z hz => hnosep z (List.mem_cons_of_mem _ hz))
          rw [show pySplitChAux sep (joinCh sep (y :: ys)) [] = pySplitCh sep (joinCh sep (y :: ys)) from rfl]
          rw [hrec]
          simp

theorem mapMkData (l : List String) : (l.map String.data).map String.mk = l := by
  induction l with
  | nil => rfl
  | cons a as ih => simp [ih, strMkData]

/-- C9: for one or more non-empty colon-free ids, parsing their colon-joined
string with `JobDependencies` recovers exactly those ids, and rendering with
`str` is then the identity on the joined string; empty segments are dropped,
so `JobDependencies('')` and `JobDependencies(':')` are both empty. -/
theorem c9_dependencies_roundtrip :
    (∀ ids : List String, ids ≠ [] → (∀ i ∈ ids, i ≠ "" ∧ ':' ∉ i.data) →
      jobDependencies (String.mk (joinCh ':' (ids.map String.data))) = ids ∧
      jobDependenciesStr (jobDependencies (String.mk (joinCh ':' (ids.map String.data))))
        = String.mk (joinCh ':' (ids.map String.data))) ∧
    jobDependencies "" = [] ∧ jobDependencies ":" = [] := by
  refine ⟨?_, by decide, by decide⟩
  intro ids hne hids
  have hparse : jobDependencies (String.mk (joinCh ':' (ids.map String.data))) = ids := by
    unfold jobDependencies pySplit
    have hsplit : pySplitCh ':' (String.mk (joinCh ':' (ids.map String.data))).data
        = ids.map String.data := by
      refine pySplitCh_joinCh ':' (ids.map String.data) (by simpa using hne) ?_
      intro x hx
      obtain ⟨i, hi, rfl⟩ := List.mem_map.mp hx
      exact (hids i hi).2
    rw [hsplit, mapMkData]
    exact List.filter_eq_self.mpr (fun i hi => by
      simpa using (hids i hi).1)
  refine ⟨hparse, ?_⟩
  rw [hparse]
  rfl

/-- Witness for C9 at ids `['123', '456']`. -/
theorem c9_dependencies_roundtrip_witness :
    (["123", "456"] ≠ ([] : List String) ∧
      ∀ i ∈ ["123", "456"], i ≠ "" ∧ ':' ∉ i.data) ∧
    jobDependencies (String.mk (joinCh ':' (["123", "456"].map String.data)))
      = ["123", "456"] :=
  ⟨⟨by decide, by decide⟩,
    (c9_dependencies_roundtrip.1 ["123", "456"] (by decide) (by decide)).1⟩

/-- C6: `assign_cpu_to_real_time_ratio` assigns the percentage
`cput / walltime` exactly to the records where both operands are present and
the walltime is non-zero, and `assign_vmem_to_mem_ratio` assigns the
percentage `vmem/mem - 1` exactly where both are present and `mem` is
non-zero; every other record (and every other field) is left unchanged, and
the guards make division by zero impossible. -/
theorem c6_ratio_assignment :
    (∀ logs, assign_cpu_to_real_time_ratio logs = logs.map assignCpuRatioOne) ∧
    (∀ logs, assign_vmem_to_mem_ratio logs = logs.map assignVmemRatioOne) ∧
    ∀ log : JobLog,
      (∀ c w, log.cput = some c → log.walltime = some w → w ≠ 0 →
        assignCpuRatioOne log
          = { log with cpu_to_real_time_ratio := some (100 * ((c : ℚ) / (w : ℚ))) }) ∧
      (log.cput = none ∨ log.walltime = none ∨ log.walltime = some 0 →
        assignCpuRatioOne log = log) ∧
      (∀ v m, log.vmem = some v → log.mem = some m → m.bytes ≠ 0 →
        assignVmemRatioOne log
          = { log with vmem_to_mem_ratio := some (100 * ((v.bytes : ℚ) / (m.bytes : ℚ) - 1)) }) ∧
      (log.vmem = none ∨ log.mem = none ∨ log.mem = some ⟨0⟩ →
        assignVmemRatioOne log = log) := by
  refine ⟨fun _ => rfl, fun _ => rfl, fun log => ⟨?_, ?_, ?_, ?_⟩⟩
  · intro c w hc hw hwz
    simp [assignCpuRatioOne, hc, hw, hwz, percent]
  · rintro (h | h | h)
    · cases hw : log.walltime <;> simp [assignCpuRatioOne, h, hw]
    · cases hc : log.cput <;> simp [assignCpuRatioOne, h, hc]
    · cases hc : log.cput <;> simp [assignCpuRatioOne, h, hc]
  · intro v m hv hm hmz
    simp [assignVmemRatioOne, hv, hm, hmz, percent]
  · rintro (h | h | h)
    · cases hm : log.mem <;> simp [assignVmemRatioOne, h, hm]
    · cases hv : log.vmem <;> simp [assignVmemRatioOne, h, hv]
    · cases hv : log.vmem <;> simp [assignVmemRatioOne, h, hv]

/-- Witness for C6 at a record with 3600s of CPU over 7200s of wall time and
100 bytes of vmem over 50 bytes of mem. -/
theorem c6_ratio_assignment_witness :
    (({ job_id := "1", job_name := "j", job_dependencies := [], path := "/x",
        cput := some 3600, walltime := some 7200,
        vmem := some ⟨100⟩, mem := some ⟨50⟩ } : JobLog).cput = some 3600 ∧
      (7200 : Nat) ≠ 0 ∧ ((⟨50⟩ : MemorySize).bytes ≠ 0)) ∧
    assignCpuRatioOne
        { job_id := "1", job_name := "j", job_dependencies := [], path := "/x",
          cput := some 3600, walltime := some 7200,
          vmem := some ⟨100⟩, mem := some ⟨50⟩ }
      = { job_id := "1", job_name := "j", job_dependencies := [], path := "/x",
          cput := some 3600, walltime := some 7200,
          vmem := some ⟨100⟩, mem := some ⟨50⟩,
          cpu_to_real_time_ratio := some (100 * ((3600 : ℚ) / (7200 : ℚ))) } ∧
    assignVmemRatioOne
        { job_id := "1", job_name := "j", job_dependencies := [], path := "/x",
          cput := some 3600, walltime := some 7200,
          vmem := some ⟨100⟩, mem := some ⟨50⟩ }
      = { job_id := "1", job_name := "j", job_dependencies := [], path := "/x",
          cput := some 3600, walltime := some 7200,
          vmem := some ⟨100⟩, mem := some ⟨50⟩,
          vmem_to_mem_ratio := some (100 * (((100 : ℚ)) / ((50 : ℚ)) - 1)) } :=
  ⟨⟨rfl, by decide, by decide⟩,
    ((c6_ratio_assignment.2.2 _).1 3600 7200 rfl rfl (by decide)),
    ((c6_ratio_assignment.2.2 _).2.2.1 ⟨100⟩ ⟨50⟩ rfl rfl (by decide))⟩

theorem scanMarkers_spec (ls : List String) (log : JobLog) :
    (scanMarkers ls log).status
        = (ls.filterMap (fun l => findMarker l.data)).foldl
            (fun _ v => some (if v = "0" then "SUCCESS" else "FAILED")) log.status ∧
    (scanMarkers ls log).MUGQIC_exit_status
        = (ls.filterMap (fun l => findMarker l.data)).foldl
            (fun _ v => some v) log.MUGQIC_exit_status ∧
    (scanMarkers ls log).end_date = log.end_date ∧
    (scanMarkers ls log).job_id = log.job_id ∧
    (scanMarkers ls log).path = log.path ∧
    (scanMarkers ls log).cput = log.cput ∧
    (scanMarkers ls log).walltime = log.walltime ∧
    (scanMarkers ls log).vmem = log.vmem ∧
    (scanMarkers ls log).mem = log.mem := by
  induction ls generalizing log with
  | nil => exact ⟨rfl, rfl, rfl, rfl, rfl, rfl, rfl, rfl, rfl⟩
  | cons l ls ih =>
      cases hf : findMarker l.data with
      | none =>
          simpa [scanMarkers, hf, List.filterMap_cons, hf] using ih log
      | some v =>
          simpa [scanMarkers, hf, List.filterMap_cons] using
            ih { log with
              MUGQIC_exit_status := some v
              status := some (if v = "0" then "SUCCESS" else "FAILED") }

/-- C8: for a record whose raw log file exists, the local-log stage sets
`end_date` to the file's timestamp and, when the file contains exactly one
`MUGQICexitStatus:<value>` marker line, sets `MUGQIC_exit_status` to that
value and `status` to SUCCESS for `'0'` and FAILED otherwise; a record whose
log file does not exist is left entirely unchanged. -/
theorem c8_local_log_stage :
    ∀ (fs : FileSys) (log : JobLog),
      (fs.fileExists log.path = false → parseClusterOne fs log = log) ∧
      (fs.fileExists log.path = true →
        (parseClusterOne fs log).end_date
            = some (DateTime.fromTimestamp (fs.ctime log.path)) ∧
        ∀ v, (fs.lines log.path).filterMap (fun l => findMarker l.data) = [v] →
          (parseClusterOne fs log).MUGQIC_exit_status = some v ∧
          (parseClusterOne fs log).status
              = some (if v = "0" then "SUCCESS" else "FAILED")) := by
  intro fs log
  constructor
  · intro h
    simp [parseClusterOne, h]
  · intro h
    have hdef : parseClusterOne fs log
        = scanMarkers (fs.lines log.path)
            { log with end_date := some (DateTime.fromTimestamp (fs.ctime log.path)) } := by
      simp [parseClusterOne, h]
    obtain ⟨hst, hmu, hed, -⟩ := scanMarkers_spec (fs.lines log.path)
      { log with end_date := some (DateTime.fromTimestamp (fs.ctime log.path)) }
    refine ⟨by rw [hdef, hed], fun v hv => ⟨?_, ?_⟩⟩
    · rw [hdef, hmu, hv]
      rfl
    · rw [hdef, hst, hv]
      rfl

/-- Witness for C8: a log file at `/x` with timestamp 5 containing a single
failed-exit marker. -/
theorem c8_local_log_stage_witness :
    ((fun p => p = "/x") "/x" = true ∧
      (["step done", "MUGQICexitStatus:1"].filterMap (fun l => findMarker l.data)
        = ["1"])) ∧
    (parseClusterOne
        ⟨fun p => p = "/x", fun _ => 5, fun _ => ["step done", "MUGQICexitStatus:1"]⟩
        { job_id := "9", job_name := "j", job_dependencies := [], path := "/x" }).end_date
      = some (DateTime.fromTimestamp 5) ∧
    (parseClusterOne
        ⟨fun p => p = "/x", fun _ => 5, fun _ => ["step done", "MUGQICexitStatus:1"]⟩
        { job_id := "9", job_name := "j", job_dependencies := [], path := "/x" }).MUGQIC_exit_status
      = some "1" ∧
    (parseClusterOne
        ⟨fun p => p = "/x", fun _ => 5, fun _ => ["step done", "MUGQICexitStatus:1"]⟩
        { job_id := "9", job_name := "j", job_dependencies := [], path := "/x" }).status
      = some (if "1" = "0" then "SUCCESS" else "FAILED") := by
  have h := (c8_local_log_stage
    ⟨fun p => p = "/x", fun _ => 5, fun _ => ["step done", "MUGQICexitStatus:1"]⟩
    { job_id := "9", job_name := "j", job_dependencies := [], path := "/x" }).2
    (by decide)
  exact ⟨⟨by decide, by decide⟩, h.1, (h.2 "1" (by decide)).1, (h.2 "1" (by decide)).2⟩

theorem parseJobListLines_error (filename cwd : String) (ls : List String)
    (l : String) (hl : l ∈ ls) (e0 : String)
    (he : parseJobListLine filename cwd l = .error e0) :
    ∃ e, parseJobListLines filename cwd ls = .error e := by
  induction ls with
  | nil => cases hl
  | cons a as ih =>
      rcases List.mem_cons.mp hl with rfl | hmem
      · refine ⟨e0, ?_⟩
        simp [parseJobListLines, he]
      · cases ha : parseJobListLine filename cwd a with
        | error e => exact ⟨e, by simp [parseJobListLines, ha]⟩
        | ok g =>
            obtain ⟨e, hrec⟩ := ih hmem
            exact ⟨e, by simp [parseJobListLines, ha, hrec]⟩

set_option linter.unnecessarySeqFocus false in
/-- C4: a manifest line whose `strip`ped text splits on tabs into exactly
4 fields yields a `JobLog` taking `job_id`, `job_name`, the colon-split
dependency list (empty segments dropped) and the absolutised log path from
those fields; a line with any other tab-separated field count raises, and one
such line makes `parse_job_list_file` raise for the whole file. -/
theorem c4_manifest_line_parsing :
    ∀ (filename cwd line : String),
      (∀ id name dep rel, pySplit '\t' (pyStrip line) = [id, name, dep, rel] →
        parseJobListLine filename cwd line = .ok
          { job_id := id
            job_name := name
            job_dependencies := jobDependencies dep
            path := pyAbspath cwd (pyJoin (pyDirname filename) rel) }) ∧
      ((pySplit '\t' (pyStrip line)).length ≠ 4 →
        ∃ e, parseJobListLine filename cwd line = .error e) ∧
      (∀ (fs : FileSys), fs.fileExists filename = true →
        line ∈ fs.lines filename →
        (pySplit '\t' (pyStrip line)).length ≠ 4 →
        ∃ e, parse_job_list_file fs cwd filename = .error e) := by
  intro filename cwd line
  have herr : (pySplit '\t' (pyStrip line)).length ≠ 4 →
      parseJobListLine filename cwd line
        = .error "ValueError: unpacking requires exactly 4 values" := by
    intro hlen
    unfold parseJobListLine
    rcases hL : pySplit '\t' (pyStrip line) with _ | ⟨a, _ | ⟨b, _ | ⟨c, _ | ⟨d, _ | ⟨e, rest⟩⟩⟩⟩⟩ <;>
      rw [hL] at hlen <;> simp_all
  refine ⟨?_, fun hlen => ⟨_, herr hlen⟩, ?_⟩
  · intro id name dep rel h
    simp [parseJobListLine, h]
  · intro fs hex hmem hlen
    have := parseJobListLines_error filename cwd (fs.lines filename) line hmem _ (herr hlen)
    obtain ⟨e, he⟩ := this
    exact ⟨e, by simp [parse_job_list_file, hex, he]⟩

/-- Witness for C4 at the line `'7\tal\t3:4\tout/l.o'` inside a one-line
manifest `/m/joblist`. -/
theorem c4_manifest_line_parsing_witness :
    (pySplit '\t' (pyStrip "7\tal\t3:4\tout/l.o") = ["7", "al", "3:4", "out/l.o"] ∧
      (pySplit '\t' (pyStrip "7\tal\tmissing")).length ≠ 4) ∧
    parseJobListLine "/m/joblist" "/cwd" "7\tal\t3:4\tout/l.o" = .ok
      { job_id := "7"
        job_name := "al"
        job_dependencies := jobDependencies "3:4"
        path := pyAbspath "/cwd" (pyJoin (pyDirname "/m/joblist") "out/l.o") } ∧
    (∃ e, parseJobListLine "/m/joblist" "/cwd" "7\tal\tmissing" = .error e) ∧
    (∃ e, parse_job_list_file
        ⟨fun p => p = "/m/joblist", fun _ => 0, fun _ => ["7\tal\tmissing"]⟩
        "/cwd" "/m/joblist" = .error e) :=
  ⟨⟨by decide, by decide⟩,
    (c4_manifest_line_parsing "/m/joblist" "/cwd" "7\tal\t3:4\tout/l.o").1
      "7" "al" "3:4" "out/l.o" (by decide),
    (c4_manifest_line_parsing "/m/joblist" "/cwd" "7\tal\tmissing").2.1 (by decide),
    (c4_manifest_line_parsing "/m/joblist" "/cwd" "7\tal\tmissing").2.2
      ⟨fun p => p = "/m/joblist", fun _ => 0, fun _ => ["7\tal\tmissing"]⟩
      (by decide) (by decide) (by decide)⟩

theorem addLimit_status (log : JobLog) (found : Option String) :
    (addLimit log found).status = log.status := by
  cases found <;> rfl

theorem addLimit_MUGQIC_exit_status (log : JobLog) (found : Option String) :
    (addLimit log found).MUGQIC_exit_status = log.MUGQIC_exit_status := by
  cases found <;> rfl

theorem parse_showjobs_line_preserves (log : JobLog) (line : String) (log2 : JobLog)
    (h : parse_showjobs_line log line = .ok log2) :
    log2.MUGQIC_exit_status = log.MUGQIC_exit_status ∧
    (∀ s, log.status = some s → log2.status = some s) := by
  unfold parse_showjobs_line at h
  repeat' split at h
  all_goals first
    | exact Except.noConfusion h
    | (injection h with h
       subst h
       refine ⟨rfl, fun s hs => ?_⟩
       first
         | exact hs
         | simp [conditional_assign, hs])

theorem parse_showjobs_lines_preserves (ls : List String) (log log2 : JobLog)
    (h : parse_showjobs_lines ls log = .ok log2) :
    log2.MUGQIC_exit_status = log.MUGQIC_exit_status ∧
    (∀ s, log.status = some s → log2.status = some s) := by
  induction ls generalizing log with
  | nil =>
      unfold parse_showjobs_lines at h
      injection h with h
      subst h
      exact ⟨rfl, fun s hs => hs⟩
  | cons l ls ih =>
      unfold parse_showjobs_lines at h
      cases hstep : parse_showjobs_line log l with
      | error e => rw [hstep] at h; cases h
      | ok mid =>
          rw [hstep] at h
          obtain ⟨hm1, hs1⟩ := parse_showjobs_line_preserves log l mid hstep
          obtain ⟨hm2, hs2⟩ := ih mid h
          exact ⟨hm2.trans hm1, fun s hs => hs2 s (hs1 s hs)⟩

theorem parse_showjobs_output_preserves (dict : List (String × List String))
    (log log2 : JobLog) (h : parse_showjobs_output dict log = .ok log2) :
    log2.MUGQIC_exit_status = log.MUGQIC_exit_status ∧
    (∀ s, log.status = some s → log2.status = some s) := by
  unfold parse_showjobs_output at h
  split at h
  · exact parse_showjobs_lines_preserves _ log log2 h
  · injection h with h
    subst h
    exact ⟨rfl, fun s hs => hs⟩

theorem checkjob_step_preserves (all : List String) (year index : Nat)
    (line : String) (log log2 : JobLog)
    (h : checkjob_step all year index line log = .ok log2) :
    log2.MUGQIC_exit_status = log.MUGQIC_exit_status ∧
    (∀ s, log.status = some s → log2.status = some s) := by
  unfold checkjob_step at h
  repeat' split at h
  all_goals first
    | exact Except.noConfusion h
    | (injection h with h
       subst h
       refine ⟨?_, fun s hs => ?_⟩
       case _ => first
         | rfl
         | simp [addLimit_MUGQIC_exit_status]
       case _ => first
         | exact hs
         | simp [conditional_assign, hs, addLimit_status])

theorem parse_checkjob_go_preserves (all : List String) (year : Nat)
    (ls : List String) (index : Nat) (log log2 : JobLog)
    (h : parse_checkjob_go all year ls index log = .ok log2) :
    log2.MUGQIC_exit_status = log.MUGQIC_exit_status ∧
    (∀ s, log.status = some s → log2.status = some s) := by
  induction ls generalizing index log with
  | nil =>
      unfold parse_checkjob_go at h
      injection h with h
      subst h
      exact ⟨rfl, fun s hs => hs⟩
  | cons l ls ih =>
      unfold parse_checkjob_go at h
      cases hstep : checkjob_step all year index l log with
      | error e => rw [hstep] at h; cases h
      | ok mid =>
          rw [hstep] at h
          obtain ⟨hm1, hs1⟩ := checkjob_step_preserves all year index l log mid hstep
          obtain ⟨hm2, hs2⟩ := ih (index + 1) mid h
          exact ⟨hm2.trans hm1, fun s hs => hs2 s (hs1 s hs)⟩

theorem parse_checkjob_output_preserves (year : Nat) (lines : List String)
    (log log2 : JobLog) (h : parse_checkjob_output year lines log = .ok log2) :
    log2.MUGQIC_exit_status = log.MUGQIC_exit_status ∧
    (∀ s, log.status = some s → log2.status = some s) :=
  parse_checkjob_go_preserves lines year lines 0 log log2 h

/-- C1 (amended): among the fields the local-log stage sets, `status` and
`MUGQIC_exit_status` are never overwritten by the later
`parse_showjobs_output` / `parse_checkjob_output` stages (`status` is
assigned there only with `conditional_assign`, `MUGQIC_exit_status` never);
`end_date`, however, is not protected — see the counterexample. -/
theorem c1_status_first_writer_wins :
    ∀ (dict : List (String × List String)) (year : Nat) (lines : List String)
      (log log1 log2 : JobLog),
      parse_showjobs_output dict log = .ok log1 →
      parse_checkjob_output year lines log1 = .ok log2 →
      log2.MUGQIC_exit_status = log.MUGQIC_exit_status ∧
      (∀ s, log.status = some s → log2.status = some s) := by
  intro dict year lines log log1 log2 h1 h2
  obtain ⟨hm1, hs1⟩ := parse_showjobs_output_preserves dict log log1 h1
  obtain ⟨hm2, hs2⟩ := parse_checkjob_output_preserves year lines log1 log2 h2
  exact ⟨hm2.trans hm1, fun s hs => hs2 s (hs1 s hs)⟩

/-- Witness for the amended C1: a record with `status` and
`MUGQIC_exit_status` already set, run through both later stages. -/
theorem c1_status_first_writer_wins_witness :
    parse_showjobs_output []
        { job_id := "1", job_name := "j", job_dependencies := [], path := "/x",
          status := some "SUCCESS", MUGQIC_exit_status := some "0" }
      = .ok { job_id := "1", job_name := "j", job_dependencies := [], path := "/x",
              status := some "SUCCESS", MUGQIC_exit_status := some "0" } ∧
    parse_checkjob_output 2020 ["State: Removed"]
        { job_id := "1", job_name := "j", job_dependencies := [], path := "/x",
          status := some "SUCCESS", MUGQIC_exit_status := some "0" }
      = .ok { job_id := "1", job_name := "j", job_dependencies := [], path := "/x",
              status := some "SUCCESS", MUGQIC_exit_status := some "0" } ∧
    ({ job_id := "1", job_name := "j", job_dependencies := [], path := "/x",
       status := some "SUCCESS", MUGQIC_exit_status := some "0" } : JobLog).MUGQIC_exit_status
      = some "0" ∧
    ({ job_id := "1", job_name := "j", job_dependencies := [], path := "/x",
       status := some "SUCCESS", MUGQIC_exit_status := some "0" } : JobLog).status
      = some "SUCCESS" := by
  refine ⟨by decide, by decide, ?_, ?_⟩
  · exact (c1_status_first_writer_wins [] 2020 ["State: Removed"]
      { job_id := "1", job_name := "j", job_dependencies := [], path := "/x",
        status := some "SUCCESS", MUGQIC_exit_status := some "0" }
      { job_id := "1", job_name := "j", job_dependencies := [], path := "/x",
        status := some "SUCCESS", MUGQIC_exit_status := some "0" }
      { job_id := "1", job_name := "j", job_dependencies := [], path := "/x",
        status := some "SUCCESS", MUGQIC_exit_status := some "0" }
      (by decide) (by decide)).1
  · exact (c1_status_first_writer_wins [] 2020 ["State: Removed"]
      { job_id := "1", job_name := "j", job_dependencies := [], path := "/x",
        status := some "SUCCESS", MUGQIC_exit_status := some "0" }
      { job_id := "1", job_name := "j", job_dependencies := [], path := "/x",
        status := some "SUCCESS", MUGQIC_exit_status := some "0" }
      { job_id := "1", job_name := "j", job_dependencies := [], path := "/x",
        status := some "SUCCESS", MUGQIC_exit_status := some "0" }
      (by decide) (by decide)).2 "SUCCESS" rfl

/-- C1 counterexample: `end_date` is among the fields the local-log stage
sets, yet `parse_showjobs_output` overwrites it unconditionally when the
entry carries an `End Time` line (the Python code assigns
`job_log.end_date = ...` directly, without `conditional_assign`).
The local log gives a 1970 timestamp, the showjobs report a 2020 date, so
the instants genuinely differ under any timezone. -/
theorem c1_first_writer_wins_counterexample :
    (parseClusterOne
        ⟨fun p => p = "/x", fun _ => 0, fun _ => ["MUGQICexitStatus:0"]⟩
        { job_id := "1", job_name := "j", job_dependencies := [], path := "/x" }).end_date
      = some (DateTime.fromTimestamp 0) ∧
    (parse_showjobs_output [("1", ["End Time : Mon Mar 02 10:00:00 2020"])]
        (parseClusterOne
          ⟨fun p => p = "/x", fun _ => 0, fun _ => ["MUGQICexitStatus:0"]⟩
          { job_id := "1", job_name := "j", job_dependencies := [], path := "/x" })).map
        (fun l => l.end_date)
      = .ok (some (DateTime.strptime "Mon Mar 02 10:00:00 2020" showjobsDateFmt)) ∧
    some (DateTime.strptime "Mon Mar 02 10:00:00 2020" showjobsDateFmt)
      ≠ some (DateTime.fromTimestamp 0) := by
  refine ⟨by decide, by decide, by decide⟩

/-- C2: a log file that exists and carries the internal marker `0` forces
the final status to SUCCESS through all three stages, whatever the showjobs
report or checkjob output say. -/
theorem c2_local_marker_wins :
    ∀ (fs : FileSys) (dict : List (String × List String)) (year : Nat)
      (lines : List String) (log log2 log3 : JobLog),
      fs.fileExists log.path = true →
      (fs.lines log.path).filterMap (fun l => findMarker l.data) = ["0"] →
      parse_showjobs_output dict (parseClusterOne fs log) = .ok log2 →
      parse_checkjob_output year lines log2 = .ok log3 →
      log3.status = some "SUCCESS" := by
  intro fs dict year lines log log2 log3 hex hmark h1 h2
  have hstage1 : (parseClusterOne fs log).status = some "SUCCESS" := by
    have := ((c8_local_log_stage fs log).2 hex).2 "0" hmark
    simpa using this.2
  obtain ⟨-, hs1⟩ := parse_showjobs_output_preserves dict (parseClusterOne fs log) log2 h1
  obtain ⟨-, hs2⟩ := parse_checkjob_output_preserves year lines log2 log3 h2
  exact hs2 "SUCCESS" (hs1 "SUCCESS" hstage1)

/-- Witness for C2: the local log carries marker `0` while the showjobs entry
for the same id reports `Exit Code : 1`; the final status is SUCCESS. -/
theorem c2_local_marker_wins_witness :
    ((fun p => p = "/x") "/x" = true ∧
      (["MUGQICexitStatus:0"].filterMap (fun l => findMarker l.data) = ["0"]) ∧
      parse_showjobs_output [("1", ["Exit Code : 1"])]
          (parseClusterOne
            ⟨fun p => p = "/x", fun _ => 0, fun _ => ["MUGQICexitStatus:0"]⟩
            { job_id := "1", job_name := "j", job_dependencies := [], path := "/x" })
        = .ok { job_id := "1", job_name := "j", job_dependencies := [], path := "/x",
                status := some "SUCCESS", exit_status := some "1",
                MUGQIC_exit_status := some "0",
                end_date := some (DateTime.fromTimestamp 0) } ∧
      parse_checkjob_output 2020 []
          { job_id := "1", job_name := "j", job_dependencies := [], path := "/x",
            status := some "SUCCESS", exit_status := some "1",
            MUGQIC_exit_status := some "0",
            end_date := some (DateTime.fromTimestamp 0) }
        = .ok { job_id := "1", job_name := "j", job_dependencies := [], path := "/x",
                status := some "SUCCESS", exit_status := some "1",
                MUGQIC_exit_status := some "0",
                end_date := some (DateTime.fromTimestamp 0) }) ∧
    ({ job_id := "1", job_name := "j", job_dependencies := [], path := "/x",
       status := some "SUCCESS", exit_status := some "1",
       MUGQIC_exit_status := some "0",
       end_date := some (DateTime.fromTimestamp 0) } : JobLog).status = some "SUCCESS" :=
  ⟨⟨by decide, by decide, by decide, by decide⟩,
    c2_local_marker_wins
      ⟨fun p => p = "/x", fun _ => 0, fun _ => ["MUGQICexitStatus:0"]⟩
      [("1", ["Exit Code : 1"])] 2020 []
      { job_id := "1", job_name := "j", job_dependencies := [], path := "/x" }
      { job_id := "1", job_name := "j", job_dependencies := [], path := "/x",
        status := some "SUCCESS", exit_status := some "1",
        MUGQIC_exit_status := some "0",
        end_date := some (DateTime.fromTimestamp 0) }
      { job_id := "1", job_name := "j", job_dependencies := [], path := "/x",
        status := some "SUCCESS", exit_status := some "1",
        MUGQIC_exit_status := some "0",
        end_date := some (DateTime.fromTimestamp 0) }
      (by decide) (by decide) (by decide) (by decide)⟩

/-- C7: an external query failure — non-zero exit or blank output, which is
exactly when `run_command` raises — is absorbed: the bulk stage yields `None`
(and thus an empty dictionary), the per-job stage yields no lines, and no
exception escapes either retrieval function. -/
theorem c7_query_failures_absorbed :
    (∀ (env : Env) (manifest : String) (logs : List JobLog),
      env.fs.fileExists manifest = true →
      (run_command env.showjobsResult).isOk = false →
      get_all_showjobs_output env manifest logs = .ok none) ∧
    (∀ (env : Env) (manifest : String) (logs : List JobLog),
      env.fs.fileExists manifest = true →
      (run_command env.showjobsResult).isOk = false →
      get_showjobs_output env manifest logs = .ok none) ∧
    (∀ (env : Env) (job_id : String),
      (run_command (env.checkjobResult job_id)).isOk = false →
      get_checkjob_output env job_id = []) := by
  have hall : ∀ (env : Env) (manifest : String) (logs : List JobLog),
      env.fs.fileExists manifest = true →
      (run_command env.showjobsResult).isOk = false →
      get_all_showjobs_output env manifest logs = .ok none := by
    intro env manifest logs hex hfail
    unfold get_all_showjobs_output
    rw [hex]
    cases hrun : run_command env.showjobsResult with
    | ok out => rw [hrun] at hfail; cases hfail
    | error e => simp
  refine ⟨hall, ?_, ?_⟩
  · intro env manifest logs hex hfail
    unfold get_showjobs_output
    rw [hall env manifest logs hex hfail]
  · intro env job_id hfail
    unfold get_checkjob_output
    cases hrun : run_command (env.checkjobResult job_id) with
    | ok out => rw [hrun] at hfail; cases hfail
    | error e => rfl

/-- Witness for C7: a process exiting 1 with no output. -/
theorem c7_query_failures_absorbed_witness :
    ((⟨⟨fun p => p = "/m", fun _ => 0, fun _ => []⟩, "/cwd", 2020,
        ⟨1, ""⟩, fun _ => ⟨1, ""⟩⟩ : Env).fs.fileExists "/m" = true ∧
      (run_command (⟨⟨fun p => p = "/m", fun _ => 0, fun _ => []⟩, "/cwd", 2020,
        ⟨1, ""⟩, fun _ => ⟨1, ""⟩⟩ : Env).showjobsResult).isOk = false) ∧
    get_all_showjobs_output
        ⟨⟨fun p => p = "/m", fun _ => 0, fun _ => []⟩, "/cwd", 2020,
          ⟨1, ""⟩, fun _ => ⟨1, ""⟩⟩ "/m" [] = .ok none ∧
    get_showjobs_output
        ⟨⟨fun p => p = "/m", fun _ => 0, fun _ => []⟩, "/cwd", 2020,
          ⟨1, ""⟩, fun _ => ⟨1, ""⟩⟩ "/m" [] = .ok none ∧
    get_checkjob_output
        ⟨⟨fun p => p = "/m", fun _ => 0, fun _ => []⟩, "/cwd", 2020,
          ⟨1, ""⟩, fun _ => ⟨1, ""⟩⟩ "77" = [] :=
  ⟨⟨by decide, by decide⟩,
    c7_query_failures_absorbed.1 _ "/m" [] (by decide) (by decide),
    c7_query_failures_absorbed.2.1 _ "/m" [] (by decide) (by decide),
    c7_query_failures_absorbed.2.2 _ "77" (by decide)⟩

theorem parseJobListLine_defaults (filename cwd line : String) (g : JobLog)
    (h : parseJobListLine filename cwd line = .ok g) :
    g.status = none ∧ g.MUGQIC_exit_status = none ∧ g.cput = none ∧
    g.walltime = none ∧ g.vmem = none ∧ g.mem = none := by
  unfold parseJobListLine at h
  split at h
  · injection h with h
    subst h
    exact ⟨rfl, rfl, rfl, rfl, rfl, rfl⟩
  · cases h

theorem parseJobListLines_ok (filename cwd : String) (ls : List String)
    (h : ∀ l ∈ ls, ∃ g, parseJobListLine filename cwd l = .ok g) :
    ∃ logs, parseJobListLines filename cwd ls = .ok logs ∧
      logs.length = ls.length ∧
      ∀ g ∈ logs, ∃ l ∈ ls, parseJobListLine filename cwd l = .ok g := by
  induction ls with
  | nil => exact ⟨[], rfl, rfl, by simp⟩
  | cons a as ih =>
      obtain ⟨g, hg⟩ := h a (List.mem_cons_self _ _)
      obtain ⟨logs, hlogs, hlen, hmem⟩ := ih (fun l hl => h l (List.mem_cons_of_mem _ hl))
      refine ⟨g :: logs, ?_, by simp [hlen], ?_⟩
      · unfold parseJobListLines
        rw [hg, hlogs]
      · intro g2 hg2
        rcases List.mem_cons.mp hg2 with rfl | hg2
        · exact ⟨a, List.mem_cons_self _ _, hg⟩
        · obtain ⟨l, hl, hpl⟩ := hmem g2 hg2
          exact ⟨l, List.mem_cons_of_mem _ hl, hpl⟩

theorem mapIdOn {α : Type} (f : α → α) (l : List α) (h : ∀ a ∈ l, f a = a) :
    l.map f = l := by
  induction l with
  | nil => rfl
  | cons a as ih =>
      simp only [List.map_cons, h a (List.mem_cons_self _ _),
        ih (fun x hx => h x (List.mem_cons_of_mem _ hx))]

theorem enrichLoop_id (env : Env) (logs : List JobLog)
    (hcheck : ∀ id, (run_command (env.checkjobResult id)).isOk = false) :
    enrichLoop env none logs = .ok logs := by
  induction logs with
  | nil => rfl
  | cons g gs ih =>
      unfold enrichLoop
      have hck : get_checkjob_output env g.job_id = [] :=
        c7_query_failures_absorbed.2.2 env g.job_id (hcheck g.job_id)
      simp only [dictTruthy, Bool.false_eq_true, reduceIte, hck]
      rw [show parse_checkjob_output env.nowYear [] g = .ok g from rfl, ih]

/-- C3: for a manifest of N well-formed lines whose log files are all missing
and with every external query failing, `create_job_logs` (keeping everything:
`keep_successful = False`) raises nothing and returns exactly N records, each
with its `status` unset — never defaulted to SUCCESS or FAILED. -/
theorem c3_undeterminable_status_stays_unset :
    ∀ (env : Env) (manifest : String) (ku : Bool),
      env.fs.fileExists manifest = true →
      (∀ l ∈ env.fs.lines manifest, (pySplit '\t' (pyStrip l)).length = 4) →
      (∀ logs, parse_job_list_file env.fs env.cwd manifest = .ok logs →
        ∀ g ∈ logs, env.fs.fileExists g.path = false) →
      (run_command env.showjobsResult).isOk = false →
      (∀ id, (run_command (env.checkjobResult id)).isOk = false) →
      ∃ logs, create_job_logs env manifest false ku false = .ok logs ∧
        logs.length = (env.fs.lines manifest).length ∧
        ∀ g ∈ logs, g.status = none := by
  intro env manifest ku hex hwf hnolog hshow hcheck
  -- every manifest line parses
  have hlineok : ∀ l ∈ env.fs.lines manifest,
      ∃ g, parseJobListLine manifest env.cwd l = .ok g := by
    intro l hl
    have h4 := hwf l hl
    rcases hL : pySplit '\t' (pyStrip l) with _ | ⟨a, _ | ⟨b, _ | ⟨c, _ | ⟨d, _ | ⟨e, rest⟩⟩⟩⟩⟩ <;>
      rw [hL] at h4 <;> simp_all
    exact ⟨_, (c4_manifest_line_parsing manifest env.cwd l).1 a b c d hL⟩
  obtain ⟨logs0, hlines, hlen, hmem⟩ :=
    parseJobListLines_ok manifest env.cwd (env.fs.lines manifest) hlineok
  have hparse : parse_job_list_file env.fs env.cwd manifest = .ok logs0 := by
    unfold parse_job_list_file
    rw [hex]
    simpa using hlines
  -- fields of every parsed record default to `none`
  have hdefaults : ∀ g ∈ logs0, g.status = none ∧ g.MUGQIC_exit_status = none ∧
      g.cput = none ∧ g.walltime = none ∧ g.vmem = none ∧ g.mem = none := by
    intro g hg
    obtain ⟨l, -, hpl⟩ := hmem g hg
    exact parseJobListLine_defaults manifest env.cwd l g hpl
  -- stage 1 is the identity: no log file exists
  have hstage1 : parse_cluster_job_log_paths env.fs logs0 = logs0 := by
    refine mapIdOn _ logs0 (fun g hg => ?_)
    exact (c8_local_log_stage env.fs g).1 (hnolog logs0 hparse g hg)
  -- the filter keeps everything: no record is successful
  have hfilter : filter_by_success logs0 false ku = logs0 := by
    unfold filter_by_success
    cases ku with
    | false => simp
    | true =>
        simp only [Bool.false_eq_true, reduceIte]
        refine List.filter_eq_self.mpr (fun g hg => ?_)
        have := (hdefaults g hg).2.1
        simp [is_successful, this]
  -- the bulk query fails, so there is no showjobs dictionary
  have hdict : get_showjobs_output env manifest logs0 = .ok none :=
    c7_query_failures_absorbed.2.1 env manifest logs0 hex hshow
  -- the per-job stage is the identity on every record
  have hloop : enrichLoop env none logs0 = .ok logs0 := enrichLoop_id env logs0 hcheck
  -- the ratio passes are the identity: no cput/vmem was ever found
  have hcpu : assign_cpu_to_real_time_ratio logs0 = logs0 := by
    refine mapIdOn _ logs0 (fun g hg => ?_)
    exact (c6_ratio_assignment.2.2 g).2.1 (Or.inl (hdefaults g hg).2.2.1)
  have hvmem : assign_vmem_to_mem_ratio logs0 = logs0 := by
    refine mapIdOn _ logs0 (fun g hg => ?_)
    exact (c6_ratio_assignment.2.2 g).2.2.2 (Or.inl (hdefaults g hg).2.2.2.2.1)
  refine ⟨logs0, ?_, hlen, fun g hg => (hdefaults g hg).1⟩
  unfold create_job_logs
  rw [hparse]
  simp only [Bool.false_eq_true, reduceIte]
  rw [hstage1, hfilter, hdict]
  simp [hloop, hcpu, hvmem]

/-- Witness for C3: a one-line manifest, the log file missing, both query
kinds failing. -/
theorem c3_undeterminable_status_stays_unset_witness :
    ((⟨⟨fun p => p = "/m/joblist", fun _ => 0, fun _ => ["1\ta\t\tl1.o"]⟩,
        "/cwd", 2020, ⟨1, ""⟩, fun _ => ⟨1, ""⟩⟩ : Env).fs.fileExists "/m/joblist" = true ∧
      (∀ l ∈ ["1\ta\t\tl1.o"], (pySplit '\t' (pyStrip l)).length = 4) ∧
      (run_command (⟨1, ""⟩ : CmdResult)).isOk = false) ∧
    ∃ logs, create_job_logs
        ⟨⟨fun p => p = "/m/joblist", fun _ => 0, fun _ => ["1\ta\t\tl1.o"]⟩,
          "/cwd", 2020, ⟨1, ""⟩, fun _ => ⟨1, ""⟩⟩ "/m/joblist" false false false
      = .ok logs ∧ logs.length = 1 ∧ ∀ g ∈ logs, g.status = none := by
  refine ⟨⟨by decide, by decide, by decide⟩, ?_⟩
  have h := c3_undeterminable_status_stays_unset
    ⟨⟨fun p => p = "/m/joblist", fun _ => 0, fun _ => ["1\ta\t\tl1.o"]⟩,
      "/cwd", 2020, ⟨1, ""⟩, fun _ => ⟨1, ""⟩⟩ "/m/joblist" false
    (by decide) (by decide)
    (by
      intro logs hp g hg
      rw [show parse_job_list_file
          (⟨fun p => p = "/m/joblist", fun _ => 0, fun _ => ["1\ta\t\tl1.o"]⟩ : FileSys)
          "/cwd" "/m/joblist"
        = .ok [{ job_id := "1", job_name := "a", job_dependencies := [],
                 path := "/m/l1.o" }] from by decide] at hp
      injection hp with hp
      subst hp
      rcases List.mem_singleton.mp hg with rfl
      decide)
    (by decide)
    (fun _ => by
      show (run_command ({ retCode := 1, stdout := "" } : CmdResult)).isOk = false
      decide)
  simpa using h
